import Mathlib

/-!
Shallow embedding of the `imager` Go package (a thin wrapper around the
`disintegration/imaging` library and the Go standard image codecs), together
with theorems settling the specification claims.

Modelling conventions:
* Go `int` is modelled as `Int`; Go integer division (`/`, truncation toward
  zero) is `Int.tdiv`.
* A decoded raster (`image.Image`, an interface in Go) is modelled as its
  bounds rectangle together with a pixel lookup `At : Int → Int → Nat`
  (colors are abstracted as `Nat` codes).  A nil interface value is
  `Option`'s `none` where nil-ability matters (the `Imager.Image` field).
* The resampling kernels (Lanczos, nearest-neighbor) and the general-angle
  rotation path of the imaging library compute pixel values (and, for
  rotation, the expanded canvas) in `float64`; those pixel values are outside
  the embedding and are represented by the constant-zero pixel function.
  All bounds arithmetic of the library is modelled exactly; the few places
  where the library computes a dimension through `float64` division
  (`imaging.Resize` with a zero target dimension, `imaging.Fit`) are modelled
  by exact integer arithmetic with the same rounding direction.
* The codecs are modelled at the dimension level: each encoder emits its
  format's magic bytes followed by the image dimensions exactly as the real
  byte formats store them (JPEG SOF: 16-bit big-endian height then width;
  PNG IHDR: 32-bit big-endian width then height; GIF logical screen
  descriptor: 16-bit little-endian width then height); the compressed pixel
  payload is abstracted away.  `image.Decode` sniffs the same magic bytes the
  Go decoders register and reads the dimensions back.
-/

/-- Error kinds surfaced by the wrapper, following the specification's
vocabulary: decode failures, file access failures and encoder failures. -/
inductive ImgError
  | decodeError
  | fileAccessError
  | encodeError
deriving DecidableEq

namespace image

/-- Go `image.Point`. -/
structure Point where
  X : Int
  Y : Int
deriving DecidableEq

/-- Go `image.Rectangle` with `Min` and `Max` corner points. -/
structure Rectangle where
  Min : Point
  Max : Point
deriving DecidableEq

/-- Go `Rectangle.Dx`: width `Max.X - Min.X`. -/
def Rectangle.Dx (r : Rectangle) : Int := r.Max.X - r.Min.X

/-- Go `Rectangle.Dy`: height `Max.Y - Min.Y`. -/
def Rectangle.Dy (r : Rectangle) : Int := r.Max.Y - r.Min.Y

/-- Go `Rectangle.Empty`: true when the rectangle contains no points. -/
def Rectangle.Empty (r : Rectangle) : Prop :=
  r.Max.X ≤ r.Min.X ∨ r.Max.Y ≤ r.Min.Y

instance (r : Rectangle) : Decidable r.Empty :=
  inferInstanceAs (Decidable (_ ∨ _))

/-- Go `image.ZR`, the zero rectangle. -/
def ZR : Rectangle := ⟨⟨0, 0⟩, ⟨0, 0⟩⟩

/-- Go `Rectangle.Intersect`: largest rectangle contained in both; the zero
rectangle when the intersection is empty. -/
def Rectangle.Intersect (r s : Rectangle) : Rectangle :=
  let t : Rectangle :=
    ⟨⟨max r.Min.X s.Min.X, max r.Min.Y s.Min.Y⟩,
     ⟨min r.Max.X s.Max.X, min r.Max.Y s.Max.Y⟩⟩
  if t.Empty then ZR else t

/-- Go `Rectangle.Add`: translate by a point. -/
def Rectangle.Add (r : Rectangle) (p : Point) : Rectangle :=
  ⟨⟨r.Min.X + p.X, r.Min.Y + p.Y⟩, ⟨r.Max.X + p.X, r.Max.Y + p.Y⟩⟩

/-- Go `Rectangle.Sub`: translate by the negation of a point. -/
def Rectangle.Sub (r : Rectangle) (p : Point) : Rectangle :=
  ⟨⟨r.Min.X - p.X, r.Min.Y - p.Y⟩, ⟨r.Max.X - p.X, r.Max.Y - p.Y⟩⟩

/-- Go `image.Rect(x0, y0, x1, y1)`: builds a rectangle, swapping the
coordinates when they are given in the wrong order. -/
def Rect (x0 y0 x1 y1 : Int) : Rectangle :=
  if x0 > x1 then
    if y0 > y1 then ⟨⟨x1, y1⟩, ⟨x0, y0⟩⟩ else ⟨⟨x1, y0⟩, ⟨x0, y1⟩⟩
  else
    if y0 > y1 then ⟨⟨x0, y1⟩, ⟨x1, y0⟩⟩ else ⟨⟨x0, y0⟩, ⟨x1, y1⟩⟩

/-- Go `image.Image` (an interface): a decoded raster, modelled by its bounds
and its color lookup `At` (colors abstracted as `Nat`). -/
structure Image where
  Bounds : Rectangle
  At : Int → Int → Nat

/-- Width of the image's bounds. -/
def Image.Dx (m : Image) : Int := m.Bounds.Dx

/-- Height of the image's bounds. -/
def Image.Dy (m : Image) : Int := m.Bounds.Dy

/-- Width/height pair of an image, the observable the claims compare. -/
def Image.dims (m : Image) : Int × Int := (m.Dx, m.Dy)

end image

/-- Big-endian 16-bit byte pair of a dimension (as JPEG and PNG store them). -/
def be16 (n : Nat) : List Nat := [n / 256 % 256, n % 256]

/-- Little-endian 16-bit byte pair of a dimension (as GIF stores them). -/
def le16 (n : Nat) : List Nat := [n % 256, n / 256 % 256]

/-- Big-endian 32-bit bytes of a dimension (as PNG's IHDR stores them). -/
def be32 (n : Nat) : List Nat :=
  [n / 16777216 % 256, n / 65536 % 256, n / 256 % 256, n % 256]

/-- Recompose a 16-bit big-endian byte pair. -/
def rd16 (hi lo : Nat) : Nat := hi * 256 + lo

/-- Recompose a 32-bit big-endian byte quadruple. -/
def rd32 (a b c d : Nat) : Nat := ((a * 256 + b) * 256 + c) * 256 + d

namespace jpeg

/-- Go `jpeg.Encode` at the dimension level: rejects images with a dimension
of 65536 or more (`jpeg: image is too large to encode`), otherwise emits the
JPEG magic `FF D8 FF`, an SOF marker byte, and the 16-bit big-endian height
then width, with the entropy-coded pixel payload abstracted away. -/
def Encode (m : image.Image) : List Nat × Option ImgError :=
  if 65536 ≤ m.Dx ∨ 65536 ≤ m.Dy then ([], some ImgError.encodeError)
  else (255 :: 216 :: 255 :: 192 :: (be16 m.Dy.toNat ++ be16 m.Dx.toNat), none)

end jpeg

namespace png

/-- Go `png.Encode` at the dimension level: rejects non-positive or 2^32-or
larger dimensions (`invalid image size`), otherwise emits the 8-byte PNG
magic and the IHDR 32-bit big-endian width then height, with chunk framing
and the compressed payload abstracted away. -/
def Encode (m : image.Image) : List Nat × Option ImgError :=
  if m.Dx ≤ 0 ∨ m.Dy ≤ 0 ∨ 4294967296 ≤ m.Dx ∨ 4294967296 ≤ m.Dy then
    ([], some ImgError.encodeError)
  else
    (137 :: 80 :: 78 :: 71 :: 13 :: 10 :: 26 :: 10 ::
      (be32 m.Dx.toNat ++ be32 m.Dy.toNat), none)

end png

namespace gif

/-- Go `gif.Encode` at the dimension level: rejects images with a dimension
of 65536 or more (`gif: image is too large to encode`), otherwise emits the
`GIF89a` magic and the logical-screen 16-bit little-endian width then height,
with palette and LZW payload abstracted away. -/
def Encode (m : image.Image) : List Nat × Option ImgError :=
  if 65536 ≤ m.Dx ∨ 65536 ≤ m.Dy then ([], some ImgError.encodeError)
  else (71 :: 73 :: 70 :: 56 :: 57 :: 97 ::
    (le16 m.Dx.toNat ++ le16 m.Dy.toNat), none)

end gif

namespace image

/-- Image produced by a successful decode: based at the origin with the
parsed dimensions; the decompressed pixel payload is abstracted away. -/
def mkDecoded (w h : Nat) : Image :=
  ⟨⟨⟨0, 0⟩, ⟨(w : Int), (h : Int)⟩⟩, fun _ _ => 0⟩

/-- Format sniffing and header parsing of Go `image.Decode`, restricted to
the three formats the package registers by importing `image/jpeg`,
`image/png` and `image/gif`: JPEG (magic `FF D8 FF`), PNG (8-byte magic) and
GIF (`GIF8?a`).  A buffer that carries none of the magics — or that ends
before the header's dimension fields — fails, as Go's decoder does with
`image: unknown format` or an EOF error; the specification groups both as
`DecodeError`. -/
def decodeCore : List Nat → Except ImgError (Image × String)
  | 255 :: 216 :: 255 :: _ :: h1 :: h0 :: w1 :: w0 :: _ =>
      Except.ok (mkDecoded (rd16 w1 w0) (rd16 h1 h0), "jpeg")
  | 137 :: 80 :: 78 :: 71 :: 13 :: 10 :: 26 :: 10 ::
      w3 :: w2 :: w1 :: w0 :: h3 :: h2 :: h1 :: h0 :: _ =>
      Except.ok (mkDecoded (rd32 w3 w2 w1 w0) (rd32 h3 h2 h1 h0), "png")
  | 71 :: 73 :: 70 :: 56 :: _ :: 97 :: w0 :: w1 :: h0 :: h1 :: _ =>
      Except.ok (mkDecoded (rd16 w1 w0) (rd16 h1 h0), "gif")
  | _ => Except.error ImgError.decodeError

/-- Go `image.Decode`: returns the decoded image, the detected format name
and an error; on failure it returns a nil image and an empty format name. -/
def Decode (data : List Nat) : Option Image × String × Option ImgError :=
  match decodeCore data with
  | Except.ok (m, t) => (some m, t, none)
  | Except.error e => (none, "", some e)

end image

namespace imaging

/-- Resampling filters the wrapper selects from
`disintegration/imaging`. -/
inductive Filter
  | Lanczos
  | NearestNeighbor

/-- Value of `&image.NRGBA{}`, which the imaging library returns for
degenerate inputs: zero bounds, zero pixels. -/
def emptyNRGBA : image.Image := ⟨⟨⟨0, 0⟩, ⟨0, 0⟩⟩, fun _ _ => 0⟩

/-- `imaging.Clone`: copies the image into an origin-based raster of the same
dimensions. -/
def Clone (m : image.Image) : image.Image :=
  ⟨⟨⟨0, 0⟩, ⟨m.Dx, m.Dy⟩⟩,
   fun a b => m.At (m.Bounds.Min.X + a) (m.Bounds.Min.Y + b)⟩

/-- Round-half-up division `⌊a / b + 1/2⌋` for positive `b`, the rounding
`imaging.Resize` applies (via `math.Floor(x + 0.5)`) when it derives a
missing target dimension from the aspect ratio. -/
def halfUp (a b : Int) : Int := Int.tdiv (2 * a + b) (2 * b)

/-- `imaging.Resize`: resamples to exactly `width × height`.  Degenerate
requests (a negative dimension, both dimensions zero, or an empty source)
yield `&image.NRGBA{}`; a single zero dimension is derived from the source's
aspect ratio with a minimum of one pixel.  The resampled pixel values are
computed in `float64` by the library and abstracted to zero here; the filter
argument only selects that unmodelled kernel. -/
def Resize (m : image.Image) (width height : Int) (_f : Filter) : image.Image :=
  if width < 0 ∨ height < 0 then emptyNRGBA
  else if width = 0 ∧ height = 0 then emptyNRGBA
  else if m.Dx ≤ 0 ∨ m.Dy ≤ 0 then emptyNRGBA
  else
    let dstW := if width = 0 then max 1 (halfUp (height * m.Dx) m.Dy) else width
    let dstH := if height = 0 then max 1 (halfUp (dstW * m.Dy) m.Dx) else height
    ⟨⟨⟨0, 0⟩, ⟨dstW, dstH⟩⟩, fun _ _ => 0⟩

/-- `imaging.Fit`: scales down preserving aspect ratio so the result fits in
`maxW × maxH`; an image that already fits is only cloned.  The library
compares aspect ratios and truncates the derived dimension in `float64`;
both are modelled exactly (cross-multiplied comparison, truncated integer
division of non-negative values). -/
def Fit (m : image.Image) (maxW maxH : Int) (f : Filter) : image.Image :=
  if maxW ≤ 0 ∨ maxH ≤ 0 then emptyNRGBA
  else if m.Dx ≤ 0 ∨ m.Dy ≤ 0 then emptyNRGBA
  else if m.Dx ≤ maxW ∧ m.Dy ≤ maxH then Clone m
  else if maxW * m.Dy < m.Dx * maxH then
    Resize m maxW (Int.tdiv (maxW * m.Dy) m.Dx) f
  else
    Resize m (Int.tdiv (maxH * m.Dx) m.Dy) maxH f

/-- `imaging.Crop`: cuts out the given rectangle, intersected with the image
bounds; an empty intersection yields `&image.NRGBA{}`, otherwise the result
is origin-based and copies the source pixels of the intersection. -/
def Crop (m : image.Image) (rect : image.Rectangle) : image.Image :=
  let r := (rect.Intersect m.Bounds).Sub m.Bounds.Min
  if r.Empty then emptyNRGBA
  else
    ⟨⟨⟨0, 0⟩, ⟨r.Dx, r.Dy⟩⟩,
     fun a b => m.At (m.Bounds.Min.X + r.Min.X + a) (m.Bounds.Min.Y + r.Min.Y + b)⟩

/-- `imaging.anchorPt` for the `Center` anchor: top-left corner of a centered
`w × h` box inside `b` (Go integer division truncates toward zero). -/
def anchorPtCenter (b : image.Rectangle) (w h : Int) : image.Point :=
  ⟨b.Min.X + Int.tdiv (b.Dx - w) 2, b.Min.Y + Int.tdiv (b.Dy - h) 2⟩

/-- `imaging.CropAnchor` with the `Center` anchor: crops to the centered
`width × height` box intersected with the image bounds. -/
def CropAnchorCenter (m : image.Image) (width height : Int) : image.Image :=
  let pt := anchorPtCenter m.Bounds width height
  let r := (image.Rect 0 0 width height).Add pt
  let b := m.Bounds.Intersect r
  Crop m b

/-- `imaging.CropCenter`: `CropAnchor` with the `Center` anchor. -/
def CropCenter (m : image.Image) (width height : Int) : image.Image :=
  CropAnchorCenter m width height

/-- Placeholder for the general-angle branch of `imaging.Rotate`: that branch
derives the expanded canvas and every pixel through `float64` trigonometry
(`math.Sin`/`math.Cos`) and bilinear interpolation, which is outside this
embedding.  No theorem in this file depends on this value. -/
def rotateGeneralUnmodelled (_m : image.Image) (_a : Int) : image.Image :=
  emptyNRGBA

/-- `imaging.Rotate` for an integer angle: the library first reduces the
angle into `[0, 360)` (`angle - math.Floor(angle/360)*360`, which is the
mathematical remainder, hence `Int.emod`), then handles the exact quarter
turns without touching the background color; all other angles take the
unmodelled float path.  Pixel contents of the quarter turns are abstracted
like the resampling kernels. -/
def Rotate (m : image.Image) (angle : Int) : image.Image :=
  let a := Int.emod angle 360
  if a = 0 then Clone m
  else if a = 90 then ⟨⟨⟨0, 0⟩, ⟨m.Dy, m.Dx⟩⟩, fun _ _ => 0⟩
  else if a = 180 then ⟨⟨⟨0, 0⟩, ⟨m.Dx, m.Dy⟩⟩, fun _ _ => 0⟩
  else if a = 270 then ⟨⟨⟨0, 0⟩, ⟨m.Dy, m.Dx⟩⟩, fun _ _ => 0⟩
  else rotateGeneralUnmodelled m a

end imaging

namespace imager

/-- The wrapper struct: a decoded image (nilable interface in Go, hence
`Option`) and a format tag string. -/
structure Imager where
  Image : Option image.Image
  ImageType : String

/-- Format tag constant `"jpeg"`. -/
def IMJPEG : String := "jpeg"

/-- Format tag constant `"jpg"`. -/
def IMJPG : String := "jpg"

/-- Format tag constant `"gif"`. -/
def IMGIF : String := "gif"

/-- Format tag constant `"png"`. -/
def IMPNG : String := "png"

/-- Format tag constant `"webp"`. -/
def IMWEBP : String := "webp"

/-- `NewImager`: wraps an already-decoded image (possibly a nil interface
value, hence the `Option` argument); the format tag is left at its zero
value `""`.  Never fails. -/
def NewImager (img : Option image.Image) : Imager × Option ImgError :=
  ({ Image := img, ImageType := "" }, none)

/-- `NewImagerFromBytes`: decodes the buffer; on failure returns no handle
and the decode error, otherwise a handle carrying the decoded image and the
detected format name. -/
def NewImagerFromBytes (data : List Nat) : Option Imager × Option ImgError :=
  let r := image.Decode data
  match r.2.2 with
  | some e => (none, some e)
  | none => (some { Image := r.1, ImageType := r.2.1 }, none)

/-- `NewImagerFromFile`: the filesystem is modelled as a partial map from
paths to byte contents; `none` is a failing `os.Open`.  On open failure the
file-access error is returned with no handle; otherwise the content is
decoded exactly as in `NewImagerFromBytes`, going through `NewImager` and
then setting the detected format tag, as the Go code does. -/
def NewImagerFromFile (fs : String → Option (List Nat)) (location : String) :
    Option Imager × Option ImgError :=
  match fs location with
  | none => (none, some ImgError.fileAccessError)
  | some data =>
    let r := image.Decode data
    match r.2.2 with
    | some e => (none, some e)
    | none =>
      let p := NewImager r.1
      (some { p.1 with ImageType := r.2.1 }, p.2)

/-- `Bytes`: encodes the held image with the encoder selected by the format
tag; any tag other than the four recognized ones falls through the `switch`
and yields the untouched empty buffer with a nil error.  The outer `Option`
records whether the call returns at all: `none` models the runtime panic Go
raises when a recognized tag makes an encoder dereference a nil image; tags
falling through the `switch` never touch the image. -/
def Imager.Bytes (i : Imager) : Option (List Nat × Option ImgError) :=
  if i.ImageType = IMJPG ∨ i.ImageType = IMJPEG then i.Image.map jpeg.Encode
  else if i.ImageType = IMPNG then i.Image.map png.Encode
  else if i.ImageType = IMGIF then i.Image.map gif.Encode
  else some ([], none)

/-- The four resize policies. -/
inductive ResizeMode
  | MD_FIT
  | MD_CROP
  | MD_SCALE
  | MD_STRETCH

/-- `Resize`: the variadic mode list defaults to `MD_FIT` and the last
element wins (the Go loop overwrites `mode` with each element); the selected
policy replaces the held image through the corresponding imaging call. -/
def Imager.Resize (i : Imager) (width height : Int) (modes : List ResizeMode) :
    Imager :=
  let mode := modes.foldl (fun _ md => md) ResizeMode.MD_FIT
  { i with
    Image := i.Image.map (fun m =>
      match mode with
      | ResizeMode.MD_SCALE => imaging.Resize m width height imaging.Filter.Lanczos
      | ResizeMode.MD_CROP => imaging.CropCenter m width height
      | ResizeMode.MD_FIT => imaging.Fit m width height imaging.Filter.Lanczos
      | ResizeMode.MD_STRETCH =>
          imaging.Resize m width height imaging.Filter.NearestNeighbor) }

/-- `Crop`: replaces the held image with
`imaging.Crop(i.Image, image.Rect(x, y, x+width, y+height))`. -/
def Imager.Crop (i : Imager) (width height x y : Int) : Imager :=
  { i with
    Image := i.Image.map (fun m =>
      imaging.Crop m (image.Rect x y (x + width) (y + height))) }

/-- `Rotate`: replaces the held image with
`imaging.Rotate(i.Image, float64(degrees), &image.Uniform{})`.  The uniform
background color is only consulted on the unmodelled general-angle path. -/
def Imager.Rotate (i : Imager) (degrees : Int) : Imager :=
  { i with Image := i.Image.map (fun m => imaging.Rotate m degrees) }

/-- Dimensions of the held image, when one is held. -/
def Imager.dims? (i : Imager) : Option (Int × Int) :=
  i.Image.map image.Image.dims

end imager

/-! Claim theorems. -/

/-- C2: for every handle whose format tag is `"webp"`, empty, or anything
other than `"jpeg"`, `"jpg"`, `"png"` or `"gif"`, `Bytes` returns an empty
buffer and no error; in particular a handle built by `NewImager` (tag left
empty) yields an empty buffer and no error. -/
theorem c2_unrecognized_tag_empty (oi : Option image.Image)
    (img : image.Image) (t : String)
    (h1 : t ≠ imager.IMJPG) (h2 : t ≠ imager.IMJPEG)
    (h3 : t ≠ imager.IMPNG) (h4 : t ≠ imager.IMGIF) :
    imager.Imager.Bytes ⟨oi, t⟩ = some ([], none) ∧
    imager.Imager.Bytes (imager.NewImager (some img)).1 = some ([], none) := by
  constructor
  · simp [imager.Imager.Bytes, h1, h2, h3, h4]
  · simp [imager.Imager.Bytes, imager.NewImager, imager.IMJPG, imager.IMJPEG,
      imager.IMPNG, imager.IMGIF]

/-- C2 witness: the `"webp"` tag and a freshly wrapped decoded image both
produce the empty buffer with no error. -/
theorem c2_witness :
    imager.Imager.Bytes ⟨none, "webp"⟩ = some ([], none) ∧
    imager.Imager.Bytes (imager.NewImager (some (image.mkDecoded 1 1))).1 =
      some ([], none) :=
  c2_unrecognized_tag_empty none (image.mkDecoded 1 1) "webp"
    (by decide) (by decide) (by decide) (by decide)

/-- C3: construction is atomic — a buffer the decoder rejects (including the
empty buffer) makes `NewImagerFromBytes` return a decode error and no
handle, and `NewImagerFromFile` returns an error and no handle both when the
open fails and when the content fails to decode. -/
theorem c3_construction_atomic (data : List Nat) (e : ImgError)
    (fs fs2 : String → Option (List Nat)) (loc loc2 : String)
    (hd : image.decodeCore data = Except.error e)
    (hopen : fs loc = none) (hread : fs2 loc2 = some data) :
    imager.NewImagerFromBytes data = (none, some e) ∧
    imager.NewImagerFromBytes [] = (none, some ImgError.decodeError) ∧
    imager.NewImagerFromFile fs loc = (none, some ImgError.fileAccessError) ∧
    imager.NewImagerFromFile fs2 loc2 = (none, some e) := by
  refine ⟨?_, rfl, ?_, ?_⟩
  · simp [imager.NewImagerFromBytes, image.Decode, hd]
  · simp [imager.NewImagerFromFile, hopen]
  · simp [imager.NewImagerFromFile, hread, image.Decode, hd]

/-- C3 witness: a junk one-byte buffer and a missing file each yield an
error and no handle. -/
theorem c3_witness :
    imager.NewImagerFromBytes [0] = (none, some ImgError.decodeError) ∧
    imager.NewImagerFromBytes [] = (none, some ImgError.decodeError) ∧
    imager.NewImagerFromFile (fun _ => none) "p" =
      (none, some ImgError.fileAccessError) ∧
    imager.NewImagerFromFile (fun _ => some [0]) "p" =
      (none, some ImgError.decodeError) :=
  c3_construction_atomic [0] ImgError.decodeError
    (fun _ => none) (fun _ => some [0]) "p" "p" rfl rfl rfl

/-- C9: each mutation method only replaces the held image, leaving the
format tag unchanged (the Go methods mutate the receiver in place and return
it, which the state-passing embedding renders as returning the updated
record). -/
theorem c9_mutations_preserve_tag (i : imager.Imager) (m : image.Image)
    (him : i.Image = some m) (w h x y d : Int)
    (modes : List imager.ResizeMode) :
    (i.Resize w h modes).ImageType = i.ImageType ∧
    (i.Crop w h x y).ImageType = i.ImageType ∧
    (i.Rotate d).ImageType = i.ImageType :=
  ⟨rfl, rfl, rfl⟩

/-- C9 witness: a concrete jpeg-tagged handle keeps its tag under resize,
crop and rotate. -/
theorem c9_witness :
    ((imager.Imager.mk (some (image.mkDecoded 8 8)) "jpeg").Resize 5 5
        [imager.ResizeMode.MD_SCALE]).ImageType = "jpeg" ∧
    ((imager.Imager.mk (some (image.mkDecoded 8 8)) "jpeg").Crop 2 2 1
        1).ImageType = "jpeg" ∧
    ((imager.Imager.mk (some (image.mkDecoded 8 8)) "jpeg").Rotate
        90).ImageType = "jpeg" :=
  c9_mutations_preserve_tag (imager.Imager.mk (some (image.mkDecoded 8 8)) "jpeg")
    (image.mkDecoded 8 8) rfl 5 5 1 1 90 [imager.ResizeMode.MD_SCALE]

/-- C1 counterexample: `Resize(50, 50, Crop)` on a handle holding a 10×10
image yields a 10×10 image, not the 50×50 the claim's scale-to-cover-then-
crop description would produce — the code's `MD_CROP` mode performs no
scaling at all. -/
theorem c1_counterexample :
    imager.Imager.dims?
        ((imager.Imager.mk (some ⟨⟨⟨0, 0⟩, ⟨10, 10⟩⟩, fun _ _ => 0⟩) "").Resize
          50 50 [imager.ResizeMode.MD_CROP]) = some (10, 10) ∧
    imager.Imager.dims?
        ((imager.Imager.mk (some ⟨⟨⟨0, 0⟩, ⟨10, 10⟩⟩, fun _ _ => 0⟩) "").Resize
          50 50 [imager.ResizeMode.MD_CROP]) ≠ some (50, 50) :=
  ⟨by decide, by decide⟩

/-- C4 counterexample: a handle may hold an image with empty bounds
(`NewImager` accepts any decoded image), and `Resize(50, 50, Scale)` then
returns the library's empty image instead of a 50×50 one. -/
theorem c4_counterexample :
    imager.Imager.dims?
        ((imager.Imager.mk (some ⟨⟨⟨0, 0⟩, ⟨0, 0⟩⟩, fun _ _ => 0⟩) "").Resize
          50 50 [imager.ResizeMode.MD_SCALE]) = some (0, 0) ∧
    imager.Imager.dims?
        ((imager.Imager.mk (some ⟨⟨⟨0, 0⟩, ⟨0, 0⟩⟩, fun _ _ => 0⟩) "").Resize
          50 50 [imager.ResizeMode.MD_SCALE]) ≠ some (50, 50) :=
  ⟨by decide, by decide⟩

/-- Helper: a byte stream carrying the JPEG magic and an SOF dimension field
decodes to an image with the stored dimensions. -/
theorem decode_jpeg_header (x h1 h0 w1 w0 : Nat) (rest : List Nat) :
    image.Decode (255 :: 216 :: 255 :: x :: h1 :: h0 :: w1 :: w0 :: rest) =
      (some (image.mkDecoded (rd16 w1 w0) (rd16 h1 h0)), "jpeg", none) := rfl

/-- Helper: a byte stream carrying the PNG magic and the IHDR dimension
fields decodes to an image with the stored dimensions. -/
theorem decode_png_header (w3 w2 w1 w0 h3 h2 h1 h0 : Nat) (rest : List Nat) :
    image.Decode (137 :: 80 :: 78 :: 71 :: 13 :: 10 :: 26 :: 10 ::
        w3 :: w2 :: w1 :: w0 :: h3 :: h2 :: h1 :: h0 :: rest) =
      (some (image.mkDecoded (rd32 w3 w2 w1 w0) (rd32 h3 h2 h1 h0)), "png", none) := rfl

/-- Helper: a byte stream carrying the GIF magic and the logical-screen
dimension fields decodes to an image with the stored dimensions. -/
theorem decode_gif_header (x w0 w1 h0 h1 : Nat) (rest : List Nat) :
    image.Decode (71 :: 73 :: 70 :: 56 :: x :: 97 :: w0 :: w1 :: h0 :: h1 :: rest) =
      (some (image.mkDecoded (rd16 w1 w0) (rd16 h1 h0)), "gif", none) := rfl

/-- Helper: recomposing a 16-bit big-endian byte pair. -/
theorem rd16_be16 (n : Nat) (hn : n < 65536) :
    rd16 (n / 256 % 256) (n % 256) = n := by
  unfold rd16; omega

/-- Helper: recomposing a 32-bit big-endian byte quadruple. -/
theorem rd32_be32 (n : Nat) (hn : n < 4294967296) :
    rd32 (n / 16777216 % 256) (n / 65536 % 256) (n / 256 % 256) (n % 256) = n := by
  unfold rd32; omega

/-- C4 (amended): for a handle holding an image with positive dimensions and
positive targets, `Resize(w, h, Scale)` yields bounds of exactly `w × h`
(the `MD_SCALE` branch delegates to `imaging.Resize` with the Lanczos
filter). -/
theorem c4_scale_exact_dims (i : imager.Imager) (m : image.Image) (w h : Int)
    (him : i.Image = some m) (hsx : 0 < m.Dx) (hsy : 0 < m.Dy)
    (hw : 0 < w) (hh : 0 < h) :
    imager.Imager.dims? (i.Resize w h [imager.ResizeMode.MD_SCALE]) = some (w, h) := by
  simp only [imager.Imager.dims?, imager.Imager.Resize, him, List.foldl,
    Option.map_some']
  simp only [imaging.Resize]
  rw [if_neg (by omega), if_neg (by omega), if_neg (by omega),
    if_neg hw.ne', if_neg hh.ne']
  simp [image.Image.dims, image.Image.Dx, image.Image.Dy,
    image.Rectangle.Dx, image.Rectangle.Dy]

/-- C4 witness: a 100×100 image resized with `Scale` to 50×50 has exactly
those dimensions. -/
theorem c4_witness :
    imager.Imager.dims?
        ((imager.Imager.mk (some (image.mkDecoded 100 100)) "").Resize 50 50
          [imager.ResizeMode.MD_SCALE]) = some (50, 50) :=
  c4_scale_exact_dims (imager.Imager.mk (some (image.mkDecoded 100 100)) "")
    (image.mkDecoded 100 100) 50 50 rfl (by decide) (by decide) (by decide)
    (by decide)

/-- C6: for a handle holding an image with positive dimensions and format
tag `"jpeg"`, `"png"` or `"gif"`, `Bytes` succeeds with no error and
decoding its output yields an image with the same width and height.  Each
format is bounded only by its own encoder's size guard: 16-bit dimensions
for JPEG and GIF, 32-bit for PNG. -/
theorem c6_roundtrip_bounds (m : image.Image)
    (hx : 0 < m.Dx) (hy : 0 < m.Dy) :
    (m.Dx < 65536 → m.Dy < 65536 →
      (imager.Imager.Bytes ⟨some m, imager.IMJPEG⟩).map
          (fun p => ((image.Decode p.1).1.map image.Image.dims, p.2)) =
        some (some (m.Dx, m.Dy), none) ∧
      (imager.Imager.Bytes ⟨some m, imager.IMGIF⟩).map
          (fun p => ((image.Decode p.1).1.map image.Image.dims, p.2)) =
        some (some (m.Dx, m.Dy), none)) ∧
    (m.Dx < 4294967296 → m.Dy < 4294967296 →
      (imager.Imager.Bytes ⟨some m, imager.IMPNG⟩).map
          (fun p => ((image.Decode p.1).1.map image.Image.dims, p.2)) =
        some (some (m.Dx, m.Dy), none)) := by
  have hminx : m.Bounds.Min.X ≤ m.Bounds.Max.X := by
    have := hx; unfold image.Image.Dx image.Rectangle.Dx at this; omega
  have hminy : m.Bounds.Min.Y ≤ m.Bounds.Max.Y := by
    have := hy; unfold image.Image.Dy image.Rectangle.Dy at this; omega
  have hbj : imager.Imager.Bytes ⟨some m, imager.IMJPEG⟩ = some (jpeg.Encode m) := by
    simp [imager.Imager.Bytes, imager.IMJPEG, imager.IMJPG]
  have hbp : imager.Imager.Bytes ⟨some m, imager.IMPNG⟩ = some (png.Encode m) := by
    simp [imager.Imager.Bytes, imager.IMJPEG, imager.IMJPG, imager.IMPNG]
  have hbg : imager.Imager.Bytes ⟨some m, imager.IMGIF⟩ = some (gif.Encode m) := by
    simp [imager.Imager.Bytes, imager.IMJPEG, imager.IMJPG, imager.IMPNG,
      imager.IMGIF]
  refine ⟨fun hx2 hy2 => ⟨?_, ?_⟩, fun hx4 hy4 => ?_⟩
  · rw [hbj]
    unfold jpeg.Encode
    rw [if_neg (by omega)]
    simp only [Option.map_some', be16, List.cons_append, List.nil_append]
    rw [decode_jpeg_header]
    rw [rd16_be16 _ (by omega), rd16_be16 _ (by omega)]
    simp [image.mkDecoded, image.Image.dims, image.Image.Dx, image.Image.Dy,
      image.Rectangle.Dx, image.Rectangle.Dy, Int.toNat_of_nonneg hx.le,
      Int.toNat_of_nonneg hy.le]
    exact ⟨hminx, hminy⟩
  · rw [hbg]
    unfold gif.Encode
    rw [if_neg (by omega)]
    simp only [Option.map_some', le16, List.cons_append, List.nil_append]
    rw [decode_gif_header]
    rw [rd16_be16 _ (by omega), rd16_be16 _ (by omega)]
    simp [image.mkDecoded, image.Image.dims, image.Image.Dx, image.Image.Dy,
      image.Rectangle.Dx, image.Rectangle.Dy, Int.toNat_of_nonneg hx.le,
      Int.toNat_of_nonneg hy.le]
    exact ⟨hminx, hminy⟩
  · rw [hbp]
    unfold png.Encode
    rw [if_neg (by omega)]
    simp only [Option.map_some', be32, List.cons_append, List.nil_append]
    rw [decode_png_header]
    rw [rd32_be32 _ (by omega), rd32_be32 _ (by omega)]
    simp [image.mkDecoded, image.Image.dims, image.Image.Dx, image.Image.Dy,
      image.Rectangle.Dx, image.Rectangle.Dy, Int.toNat_of_nonneg hx.le,
      Int.toNat_of_nonneg hy.le]
    exact ⟨hminx, hminy⟩

/-- C6 witness: a 3×2 image round-trips through the JPEG and GIF encoders,
and a 70000×3 image — wider than the 16-bit formats allow but within PNG's
32-bit range — round-trips through the PNG encoder, all with dimensions
preserved. -/
theorem c6_witness :
    (imager.Imager.Bytes ⟨some (image.mkDecoded 3 2), imager.IMJPEG⟩).map
        (fun p => ((image.Decode p.1).1.map image.Image.dims, p.2)) =
      some (some (3, 2), none) ∧
    (imager.Imager.Bytes ⟨some (image.mkDecoded 3 2), imager.IMGIF⟩).map
        (fun p => ((image.Decode p.1).1.map image.Image.dims, p.2)) =
      some (some (3, 2), none) ∧
    (imager.Imager.Bytes ⟨some (image.mkDecoded 70000 3), imager.IMPNG⟩).map
        (fun p => ((image.Decode p.1).1.map image.Image.dims, p.2)) =
      some (some (70000, 3), none) :=
  ⟨((c6_roundtrip_bounds (image.mkDecoded 3 2) (by decide) (by decide)).1
      (by decide) (by decide)).1,
   ((c6_roundtrip_bounds (image.mkDecoded 3 2) (by decide) (by decide)).1
      (by decide) (by decide)).2,
   (c6_roundtrip_bounds (image.mkDecoded 70000 3) (by decide) (by decide)).2
     (by decide) (by decide)⟩

/-- Helper: cropping to a nonempty rectangle that lies inside the image
bounds yields exactly that sub-rectangle, rebased at the origin. -/
theorem imaging_crop_rect_in_bounds (m : image.Image) (w h x y : Int)
    (hw : 0 < w) (hh : 0 < h)
    (hx1 : m.Bounds.Min.X ≤ x) (hx2 : x + w ≤ m.Bounds.Max.X)
    (hy1 : m.Bounds.Min.Y ≤ y) (hy2 : y + h ≤ m.Bounds.Max.Y) :
    imaging.Crop m ⟨⟨x, y⟩, ⟨x + w, y + h⟩⟩ =
      ⟨⟨⟨0, 0⟩, ⟨w, h⟩⟩, fun a b => m.At (x + a) (y + b)⟩ := by
  obtain ⟨⟨⟨minx, miny⟩, ⟨maxx, maxy⟩⟩, f⟩ := m
  dsimp only at hx1 hx2 hy1 hy2
  have hint : image.Rectangle.Intersect ⟨⟨x, y⟩, ⟨x + w, y + h⟩⟩
      ⟨⟨minx, miny⟩, ⟨maxx, maxy⟩⟩ = ⟨⟨x, y⟩, ⟨x + w, y + h⟩⟩ := by
    unfold image.Rectangle.Intersect
    dsimp only
    rw [if_neg (by unfold image.Rectangle.Empty; dsimp only; omega)]
    simp only [image.Rectangle.mk.injEq, image.Point.mk.injEq]
    omega
  unfold imaging.Crop
  dsimp only
  rw [hint]
  unfold image.Rectangle.Sub
  dsimp only
  rw [if_neg (by unfold image.Rectangle.Empty; dsimp only; omega)]
  unfold image.Rectangle.Dx image.Rectangle.Dy
  dsimp only
  simp only [image.Image.mk.injEq, image.Rectangle.mk.injEq, image.Point.mk.injEq]
  refine ⟨⟨trivial, by ring, by ring⟩, ?_⟩
  funext a b
  have e1 : minx + (x - minx) + a = x + a := by ring
  have e2 : miny + (y - miny) + b = y + b := by ring
  rw [e1, e2]

/-- Helper: the same statement through `image.Rect`, as the wrapper's `Crop`
builds its rectangle. -/
theorem imaging_crop_in_bounds (m : image.Image) (w h x y : Int)
    (hw : 0 < w) (hh : 0 < h)
    (hx1 : m.Bounds.Min.X ≤ x) (hx2 : x + w ≤ m.Bounds.Max.X)
    (hy1 : m.Bounds.Min.Y ≤ y) (hy2 : y + h ≤ m.Bounds.Max.Y) :
    imaging.Crop m (image.Rect x y (x + w) (y + h)) =
      ⟨⟨⟨0, 0⟩, ⟨w, h⟩⟩, fun a b => m.At (x + a) (y + b)⟩ := by
  have hrect : image.Rect x y (x + w) (y + h) = ⟨⟨x, y⟩, ⟨x + w, y + h⟩⟩ := by
    unfold image.Rect
    rw [if_neg (by omega), if_neg (by omega)]
  rw [hrect]
  exact imaging_crop_rect_in_bounds m w h x y hw hh hx1 hx2 hy1 hy2

/-- Helper: when the target box fits inside the image, `CropCenter` returns
exactly the `w × h` box whose top-left corner sits at the centering offsets
`⌊(Dx−w)/2⌋, ⌊(Dy−h)/2⌋` from the image's minimum corner. -/
theorem imaging_cropCenter_covers (m : image.Image) (w h : Int)
    (hw0 : 0 < w) (hh0 : 0 < h) (hw : w ≤ m.Dx) (hh : h ≤ m.Dy) :
    imaging.CropCenter m w h =
      ⟨⟨⟨0, 0⟩, ⟨w, h⟩⟩,
       fun a b => m.At (m.Bounds.Min.X + Int.tdiv (m.Dx - w) 2 + a)
                       (m.Bounds.Min.Y + Int.tdiv (m.Dy - h) 2 + b)⟩ := by
  obtain ⟨⟨⟨minx, miny⟩, ⟨maxx, maxy⟩⟩, f⟩ := m
  unfold image.Image.Dx image.Rectangle.Dx at hw
  unfold image.Image.Dy image.Rectangle.Dy at hh
  dsimp only at hw hh
  have hex : Int.tdiv (maxx - minx - w) 2 = (maxx - minx - w) / 2 :=
    Int.tdiv_eq_ediv (by omega) (by omega)
  have hey : Int.tdiv (maxy - miny - h) 2 = (maxy - miny - h) / 2 :=
    Int.tdiv_eq_ediv (by omega) (by omega)
  unfold imaging.CropCenter imaging.CropAnchorCenter imaging.anchorPtCenter
    image.Image.Dx image.Image.Dy image.Rectangle.Dx image.Rectangle.Dy
  dsimp only
  rw [hex, hey]
  have hrect : image.Rect 0 0 w h = ⟨⟨0, 0⟩, ⟨w, h⟩⟩ := by
    unfold image.Rect
    rw [if_neg (by omega), if_neg (by omega)]
  rw [hrect]
  unfold image.Rectangle.Add
  dsimp only
  have hex0 : 0 ≤ (maxx - minx - w) / 2 := by omega
  have hex1 : (maxx - minx - w) / 2 ≤ maxx - minx - w := by omega
  have hey0 : 0 ≤ (maxy - miny - h) / 2 := by omega
  have hey1 : (maxy - miny - h) / 2 ≤ maxy - miny - h := by omega
  have hint : image.Rectangle.Intersect ⟨⟨minx, miny⟩, ⟨maxx, maxy⟩⟩
      ⟨⟨0 + (minx + (maxx - minx - w) / 2), 0 + (miny + (maxy - miny - h) / 2)⟩,
       ⟨w + (minx + (maxx - minx - w) / 2), h + (miny + (maxy - miny - h) / 2)⟩⟩ =
      ⟨⟨minx + (maxx - minx - w) / 2, miny + (maxy - miny - h) / 2⟩,
       ⟨minx + (maxx - minx - w) / 2 + w, miny + (maxy - miny - h) / 2 + h⟩⟩ := by
    unfold image.Rectangle.Intersect
    dsimp only
    rw [if_neg (by unfold image.Rectangle.Empty; dsimp only; omega)]
    simp only [image.Rectangle.mk.injEq, image.Point.mk.injEq]
    omega
  rw [hint]
  rw [imaging_crop_rect_in_bounds ⟨⟨⟨minx, miny⟩, ⟨maxx, maxy⟩⟩, f⟩ w h
    (minx + (maxx - minx - w) / 2) (miny + (maxy - miny - h) / 2)
    hw0 hh0 (by dsimp only; omega) (by dsimp only; omega)
    (by dsimp only; omega) (by dsimp only; omega)]

/-- C7: for a handle holding an image and a nonempty crop rectangle lying
inside its bounds, `Crop(width, height, x, y)` replaces the held image with
exactly the sub-rectangle `[x, x+width) × [y, y+height)`: the result has the
requested dimensions and its pixel `(a, b)` is the original pixel
`(x+a, y+b)` (out-of-bounds rectangles follow the library's clamping, which
the claim delegates to the underlying primitive). -/
theorem c7_crop_subrectangle (i : imager.Imager) (m : image.Image) (w h x y : Int)
    (him : i.Image = some m) (hw : 0 < w) (hh : 0 < h)
    (hx1 : m.Bounds.Min.X ≤ x) (hx2 : x + w ≤ m.Bounds.Max.X)
    (hy1 : m.Bounds.Min.Y ≤ y) (hy2 : y + h ≤ m.Bounds.Max.Y) :
    imager.Imager.dims? (i.Crop w h x y) = some (w, h) ∧
    ∀ a b : Int, ((i.Crop w h x y).Image.map fun c => c.At a b) =
      some (m.At (x + a) (y + b)) := by
  have hc := imaging_crop_in_bounds m w h x y hw hh hx1 hx2 hy1 hy2
  constructor
  · simp [imager.Imager.dims?, imager.Imager.Crop, him, hc, image.Image.dims,
      image.Image.Dx, image.Image.Dy, image.Rectangle.Dx, image.Rectangle.Dy]
  · intro a b
    simp [imager.Imager.Crop, him, hc]

/-- C7 witness: cropping 4×3 at origin (2, 1) out of a 10×10 image gives a
4×3 result whose pixel (0, 0) is the original pixel (2, 1). -/
theorem c7_witness :
    imager.Imager.dims?
        ((imager.Imager.mk
            (some ⟨⟨⟨0, 0⟩, ⟨10, 10⟩⟩, fun a b => (a + 10 * b).toNat⟩) "").Crop
          4 3 2 1) = some (4, 3) ∧
    (((imager.Imager.mk
            (some ⟨⟨⟨0, 0⟩, ⟨10, 10⟩⟩, fun a b => (a + 10 * b).toNat⟩) "").Crop
          4 3 2 1).Image.map fun c => c.At 0 0) = some 12 :=
  ⟨(c7_crop_subrectangle
      (imager.Imager.mk
        (some ⟨⟨⟨0, 0⟩, ⟨10, 10⟩⟩, fun a b => (a + 10 * b).toNat⟩) "")
      ⟨⟨⟨0, 0⟩, ⟨10, 10⟩⟩, fun a b => (a + 10 * b).toNat⟩ 4 3 2 1 rfl
      (by decide) (by decide) (by decide) (by decide) (by decide) (by decide)).1,
   (c7_crop_subrectangle
      (imager.Imager.mk
        (some ⟨⟨⟨0, 0⟩, ⟨10, 10⟩⟩, fun a b => (a + 10 * b).toNat⟩) "")
      ⟨⟨⟨0, 0⟩, ⟨10, 10⟩⟩, fun a b => (a + 10 * b).toNat⟩ 4 3 2 1 rfl
      (by decide) (by decide) (by decide) (by decide) (by decide) (by decide)).2 0 0⟩

/-- C1 (amended): `Resize(w, h, Crop)` performs a pure center crop with no
scaling step — when the held image is at least `w × h`, the result is the
`w × h` box cropped symmetrically around the center (offsets
`⌊(Dx−w)/2⌋, ⌊(Dy−h)/2⌋`, truncated division), its pixels taken verbatim
from the original; smaller images are returned clipped to their own size, as
`c1_counterexample` exhibits. -/
theorem c1_crop_mode_center_amended (i : imager.Imager) (m : image.Image) (w h : Int)
    (him : i.Image = some m) (hw0 : 0 < w) (hh0 : 0 < h)
    (hw : w ≤ m.Dx) (hh : h ≤ m.Dy) :
    imager.Imager.dims? (i.Resize w h [imager.ResizeMode.MD_CROP]) = some (w, h) ∧
    ∀ a b : Int,
      ((i.Resize w h [imager.ResizeMode.MD_CROP]).Image.map fun c => c.At a b) =
        some (m.At (m.Bounds.Min.X + Int.tdiv (m.Dx - w) 2 + a)
                   (m.Bounds.Min.Y + Int.tdiv (m.Dy - h) 2 + b)) := by
  have hc := imaging_cropCenter_covers m w h hw0 hh0 hw hh
  constructor
  · simp [imager.Imager.dims?, imager.Imager.Resize, him, hc, image.Image.dims,
      image.Image.Dx, image.Image.Dy, image.Rectangle.Dx, image.Rectangle.Dy]
  · intro a b
    simp [imager.Imager.Resize, him, hc]

/-- C1 witness: center-cropping a 10×10 image to 4×2 yields a 4×2 result
whose pixel (0, 0) is the original pixel (3, 4). -/
theorem c1_witness :
    imager.Imager.dims?
        ((imager.Imager.mk
            (some ⟨⟨⟨0, 0⟩, ⟨10, 10⟩⟩, fun a b => (a + 10 * b).toNat⟩) "").Resize
          4 2 [imager.ResizeMode.MD_CROP]) = some (4, 2) ∧
    (((imager.Imager.mk
            (some ⟨⟨⟨0, 0⟩, ⟨10, 10⟩⟩, fun a b => (a + 10 * b).toNat⟩) "").Resize
          4 2 [imager.ResizeMode.MD_CROP]).Image.map fun c => c.At 0 0) = some 43 :=
  ⟨(c1_crop_mode_center_amended
      (imager.Imager.mk
        (some ⟨⟨⟨0, 0⟩, ⟨10, 10⟩⟩, fun a b => (a + 10 * b).toNat⟩) "")
      ⟨⟨⟨0, 0⟩, ⟨10, 10⟩⟩, fun a b => (a + 10 * b).toNat⟩ 4 2 rfl
      (by decide) (by decide) (by decide) (by decide)).1,
   (c1_crop_mode_center_amended
      (imager.Imager.mk
        (some ⟨⟨⟨0, 0⟩, ⟨10, 10⟩⟩, fun a b => (a + 10 * b).toNat⟩) "")
      ⟨⟨⟨0, 0⟩, ⟨10, 10⟩⟩, fun a b => (a + 10 * b).toNat⟩ 4 2 rfl
      (by decide) (by decide) (by decide) (by decide)).2 0 0⟩

/-- Helper: bounds of `imaging.Resize` when the requested width is positive
and the requested height non-negative (possibly zero, in which case the
library derives it from the aspect ratio with a one-pixel minimum). -/
theorem resize_dims_wpos (m : image.Image) (w nh : Int) (f : imaging.Filter)
    (hsx : 0 < m.Dx) (hsy : 0 < m.Dy) (hw : 0 < w) (hnh : 0 ≤ nh) :
    (imaging.Resize m w nh f).Bounds =
      ⟨⟨0, 0⟩, ⟨w, if nh = 0 then max 1 (imaging.halfUp (w * m.Dy) m.Dx) else nh⟩⟩ := by
  unfold imaging.Resize
  rw [if_neg (by omega), if_neg (by omega), if_neg (by omega)]
  dsimp only
  rw [if_neg hw.ne']

/-- Helper: bounds of `imaging.Resize` when the requested height is positive
and the requested width non-negative. -/
theorem resize_dims_hpos (m : image.Image) (nw h : Int) (f : imaging.Filter)
    (hsx : 0 < m.Dx) (hsy : 0 < m.Dy) (hnw : 0 ≤ nw) (hh : 0 < h) :
    (imaging.Resize m nw h f).Bounds =
      ⟨⟨0, 0⟩, ⟨if nw = 0 then max 1 (imaging.halfUp (h * m.Dx) m.Dy) else nw, h⟩⟩ := by
  unfold imaging.Resize
  rw [if_neg (by omega), if_neg (by omega), if_neg (by omega)]
  dsimp only
  rw [if_neg hh.ne']

/-- Helper: the round-half-up quotient of `a` by a larger positive `b` is
zero or one. -/
theorem halfUp_le_one (a b : Int) (ha : 0 ≤ a) (hb : 0 < b) (hab : a < b) :
    0 ≤ imaging.halfUp a b ∧ imaging.halfUp a b ≤ 1 := by
  unfold imaging.halfUp
  rw [Int.tdiv_eq_ediv (by omega) (by omega)]
  constructor
  · exact Int.ediv_nonneg (by omega) (by omega)
  · have h2 : (2 * a + b) / (2 * b) < 2 :=
      (Int.ediv_lt_iff_lt_mul (by omega)).mpr (by omega)
    omega

/-- Helper: width unfolded to bound coordinates. -/
theorem image_dx_bounds (X : image.Image) :
    X.Dx = X.Bounds.Max.X - X.Bounds.Min.X := rfl

/-- Helper: height unfolded to bound coordinates. -/
theorem image_dy_bounds (X : image.Image) :
    X.Dy = X.Bounds.Max.Y - X.Bounds.Min.Y := rfl

/-- Helper: `imaging.Fit` with positive targets yields dimensions that fit
in the requested box, and — whenever the source is nonempty — preserve the
source aspect ratio up to one-pixel rounding, stated cross-multiplied:
`|resH·srcW − resW·srcH| ≤ max srcW srcH`. -/
theorem imaging_fit_bounds (m : image.Image) (w h : Int) (f : imaging.Filter)
    (hw : 0 < w) (hh : 0 < h) :
    (imaging.Fit m w h f).Dx ≤ w ∧ (imaging.Fit m w h f).Dy ≤ h ∧
    (0 < m.Dx → 0 < m.Dy →
      |(imaging.Fit m w h f).Dy * m.Dx - (imaging.Fit m w h f).Dx * m.Dy| ≤
        max m.Dx m.Dy) := by
  by_cases hsrc : m.Dx ≤ 0 ∨ m.Dy ≤ 0
  · have hfe : imaging.Fit m w h f = imaging.emptyNRGBA := by
      unfold imaging.Fit
      rw [if_neg (by omega), if_pos hsrc]
    rw [hfe]
    refine ⟨?_, ?_, fun h1 h2 => absurd hsrc (by omega)⟩
    · rw [image_dx_bounds]
      unfold imaging.emptyNRGBA
      dsimp only
      omega
    · rw [image_dy_bounds]
      unfold imaging.emptyNRGBA
      dsimp only
      omega
  · have hsx : 0 < m.Dx := by omega
    have hsy : 0 < m.Dy := by omega
    by_cases hfits : m.Dx ≤ w ∧ m.Dy ≤ h
    · have hfe : imaging.Fit m w h f = imaging.Clone m := by
        unfold imaging.Fit
        rw [if_neg (by omega), if_neg (by omega), if_pos hfits]
      rw [hfe]
      have hdx : (imaging.Clone m).Dx = m.Dx := by
        rw [image_dx_bounds]
        unfold imaging.Clone
        dsimp only
        exact sub_zero _
      have hdy : (imaging.Clone m).Dy = m.Dy := by
        rw [image_dy_bounds]
        unfold imaging.Clone
        dsimp only
        exact sub_zero _
      rw [hdx, hdy]
      refine ⟨hfits.1, hfits.2, fun _ _ => ?_⟩
      have hz : m.Dy * m.Dx - m.Dx * m.Dy = 0 := by ring
      rw [hz, abs_zero]
      have := le_max_left m.Dx m.Dy
      omega
    · by_cases hasp : w * m.Dy < m.Dx * h
      · have hfe : imaging.Fit m w h f =
            imaging.Resize m w (Int.tdiv (w * m.Dy) m.Dx) f := by
          unfold imaging.Fit
          rw [if_neg (by omega), if_neg (by omega), if_neg hfits, if_pos hasp]
        have htd : Int.tdiv (w * m.Dy) m.Dx = w * m.Dy / m.Dx :=
          Int.tdiv_eq_ediv (mul_nonneg hw.le hsy.le) hsx.le
        rw [hfe, htd]
        have hq0 : 0 ≤ w * m.Dy / m.Dx :=
          Int.ediv_nonneg (mul_nonneg hw.le hsy.le) hsx.le
        have hql : w * m.Dy / m.Dx * m.Dx ≤ w * m.Dy :=
          Int.ediv_mul_le _ hsx.ne'
        have hqu : w * m.Dy < (w * m.Dy / m.Dx + 1) * m.Dx :=
          Int.lt_ediv_add_one_mul_self _ hsx
        have hqu' : w * m.Dy < w * m.Dy / m.Dx * m.Dx + m.Dx := by
          have hexp : (w * m.Dy / m.Dx + 1) * m.Dx =
              w * m.Dy / m.Dx * m.Dx + m.Dx := by ring
          rw [hexp] at hqu
          exact hqu
        have hb := resize_dims_wpos m w (w * m.Dy / m.Dx) f hsx hsy hw hq0
        have hmaxx := le_max_left m.Dx m.Dy
        have hmaxy := le_max_right m.Dx m.Dy
        by_cases hq00 : w * m.Dy / m.Dx = 0
        · have hwsy_lt : w * m.Dy < m.Dx := by
            rw [hq00] at hqu'
            simpa using hqu'
          have hhu := halfUp_le_one (w * m.Dy) m.Dx (mul_nonneg hw.le hsy.le)
            hsx hwsy_lt
          have hmax1 : max 1 (imaging.halfUp (w * m.Dy) m.Dx) = 1 :=
            max_eq_left hhu.2
          rw [hq00, if_pos rfl, hmax1] at hb
          have hDx : (imaging.Resize m w (w * m.Dy / m.Dx) f).Dx = w := by
            rw [image_dx_bounds, hq00, hb]
            dsimp only
            exact sub_zero _
          have hDy : (imaging.Resize m w (w * m.Dy / m.Dx) f).Dy = 1 := by
            rw [image_dy_bounds, hq00, hb]
            dsimp only
            exact sub_zero _
          rw [hDx, hDy]
          refine ⟨le_refl w, by omega, fun _ _ => ?_⟩
          have hpos : 0 < w * m.Dy := mul_pos hw hsy
          rw [abs_of_nonneg (by linarith [one_mul m.Dx])]
          linarith [one_mul m.Dx]
        · rw [if_neg hq00] at hb
          have hDx : (imaging.Resize m w (w * m.Dy / m.Dx) f).Dx = w := by
            rw [image_dx_bounds, hb]
            dsimp only
            exact sub_zero _
          have hDy : (imaging.Resize m w (w * m.Dy / m.Dx) f).Dy =
              w * m.Dy / m.Dx := by
            rw [image_dy_bounds, hb]
            dsimp only
            exact sub_zero _
          rw [hDx, hDy]
          have hcomm : m.Dx * h = h * m.Dx := mul_comm _ _
          have hqh : w * m.Dy / m.Dx < h := by
            have h1 : w * m.Dy / m.Dx * m.Dx < h * m.Dx := by linarith
            exact lt_of_mul_lt_mul_right h1 hsx.le
          refine ⟨le_refl w, by omega, fun _ _ => ?_⟩
          rw [abs_of_nonpos (by linarith)]
          linarith
      · have hfe : imaging.Fit m w h f =
            imaging.Resize m (Int.tdiv (h * m.Dx) m.Dy) h f := by
          unfold imaging.Fit
          rw [if_neg (by omega), if_neg (by omega), if_neg hfits, if_neg hasp]
        have htd : Int.tdiv (h * m.Dx) m.Dy = h * m.Dx / m.Dy :=
          Int.tdiv_eq_ediv (mul_nonneg hh.le hsx.le) hsy.le
        rw [hfe, htd]
        have hp0 : 0 ≤ h * m.Dx / m.Dy :=
          Int.ediv_nonneg (mul_nonneg hh.le hsx.le) hsy.le
        have hpl : h * m.Dx / m.Dy * m.Dy ≤ h * m.Dx :=
          Int.ediv_mul_le _ hsy.ne'
        have hpu : h * m.Dx < (h * m.Dx / m.Dy + 1) * m.Dy :=
          Int.lt_ediv_add_one_mul_self _ hsy
        have hpu' : h * m.Dx < h * m.Dx / m.Dy * m.Dy + m.Dy := by
          have hexp : (h * m.Dx / m.Dy + 1) * m.Dy =
              h * m.Dx / m.Dy * m.Dy + m.Dy := by ring
          rw [hexp] at hpu
          exact hpu
        have hb := resize_dims_hpos m (h * m.Dx / m.Dy) h f hsx hsy hp0 hh
        have hmaxx := le_max_left m.Dx m.Dy
        have hmaxy := le_max_right m.Dx m.Dy
        by_cases hp00 : h * m.Dx / m.Dy = 0
        · have hhsx_lt : h * m.Dx < m.Dy := by
            rw [hp00] at hpu'
            simpa using hpu'
          have hhu := halfUp_le_one (h * m.Dx) m.Dy (mul_nonneg hh.le hsx.le)
            hsy hhsx_lt
          have hmax1 : max 1 (imaging.halfUp (h * m.Dx) m.Dy) = 1 :=
            max_eq_left hhu.2
          rw [hp00, if_pos rfl, hmax1] at hb
          have hDx : (imaging.Resize m (h * m.Dx / m.Dy) h f).Dx = 1 := by
            rw [image_dx_bounds, hp00, hb]
            dsimp only
            exact sub_zero _
          have hDy : (imaging.Resize m (h * m.Dx / m.Dy) h f).Dy = h := by
            rw [image_dy_bounds, hp00, hb]
            dsimp only
            exact sub_zero _
          rw [hDx, hDy]
          refine ⟨by omega, le_refl h, fun _ _ => ?_⟩
          have hpos : 0 < h * m.Dx := mul_pos hh hsx
          rw [abs_of_nonpos (by linarith [one_mul m.Dy])]
          linarith [one_mul m.Dy]
        · rw [if_neg hp00] at hb
          have hDx : (imaging.Resize m (h * m.Dx / m.Dy) h f).Dx =
              h * m.Dx / m.Dy := by
            rw [image_dx_bounds, hb]
            dsimp only
            exact sub_zero _
          have hDy : (imaging.Resize m (h * m.Dx / m.Dy) h f).Dy = h := by
            rw [image_dy_bounds, hb]
            dsimp only
            exact sub_zero _
          rw [hDx, hDy]
          have hcomm : m.Dx * h = h * m.Dx := mul_comm _ _
          have hpw : h * m.Dx / m.Dy ≤ w := by
            have h1 : h * m.Dx / m.Dy * m.Dy ≤ w * m.Dy := by linarith
            exact le_of_mul_le_mul_right h1 hsy
          refine ⟨hpw, le_refl h, fun _ _ => ?_⟩
          rw [abs_of_nonneg (by linarith)]
          linarith

/-- C5: `Resize(w, h)` with no mode argument equals `Resize(w, h, Fit)` (the
variadic mode defaults to `MD_FIT`), and for positive targets the result's
bounds fit within `w × h` while preserving the original aspect ratio within
one-pixel rounding (cross-multiplied form). -/
theorem c5_resize_default_fit (i : imager.Imager) (m : image.Image) (w h : Int)
    (him : i.Image = some m) (hw : 0 < w) (hh : 0 < h) :
    i.Resize w h [] = i.Resize w h [imager.ResizeMode.MD_FIT] ∧
    ((i.Resize w h []).Image).isSome = true ∧
    ∀ dw dh : Int, imager.Imager.dims? (i.Resize w h []) = some (dw, dh) →
      dw ≤ w ∧ dh ≤ h ∧
      (0 < m.Dx → 0 < m.Dy → |dh * m.Dx - dw * m.Dy| ≤ max m.Dx m.Dy) := by
  refine ⟨rfl, ?_, ?_⟩
  · simp [imager.Imager.Resize, him]
  · intro dw dh hdim
    have hfb := imaging_fit_bounds m w h imaging.Filter.Lanczos hw hh
    simp [imager.Imager.dims?, imager.Imager.Resize, him, image.Image.dims]
      at hdim
    obtain ⟨h1, h2⟩ := hdim
    exact ⟨h1 ▸ hfb.1, h2 ▸ hfb.2.1, fun a b => by
      rw [← h1, ← h2]; exact hfb.2.2 a b⟩

/-- C5 witness: a 100×50 image resized into a 30×30 box gives 30×15, which
fits and preserves the 2:1 aspect ratio exactly. -/
theorem c5_witness :
    ((imager.Imager.mk (some ⟨⟨⟨0, 0⟩, ⟨100, 50⟩⟩, fun _ _ => 0⟩) "").Resize 30 30 [] =
      (imager.Imager.mk (some ⟨⟨⟨0, 0⟩, ⟨100, 50⟩⟩, fun _ _ => 0⟩) "").Resize 30 30
        [imager.ResizeMode.MD_FIT]) ∧
    ((30 : Int) ≤ 30 ∧ (15 : Int) ≤ 30 ∧
      (0 < (100 : Int) → 0 < (50 : Int) →
        |(15 : Int) * 100 - 30 * 50| ≤ max (100 : Int) 50)) :=
  ⟨(c5_resize_default_fit
      (imager.Imager.mk (some ⟨⟨⟨0, 0⟩, ⟨100, 50⟩⟩, fun _ _ => 0⟩) "")
      ⟨⟨⟨0, 0⟩, ⟨100, 50⟩⟩, fun _ _ => 0⟩ 30 30 rfl (by decide) (by decide)).1,
   (c5_resize_default_fit
      (imager.Imager.mk (some ⟨⟨⟨0, 0⟩, ⟨100, 50⟩⟩, fun _ _ => 0⟩) "")
      ⟨⟨⟨0, 0⟩, ⟨100, 50⟩⟩, fun _ _ => 0⟩ 30 30 rfl (by decide) (by decide)).2.2
     30 15 (by decide)⟩
